import Mathlib

/-!
Verification of the STM32 G4 ADC driver (`embassy-stm32/src/adc/g4.rs`),
compiled for the `stm32g4` family (the `cfg(stm32g4)` branches).

The driver is shallowly embedded:
* `Prescaler.from_ker_ck` / `Prescaler.divisor` are the pure clock-prescaler
  functions, with the `unimplemented!()` arm of the `match` rendered as `none`.
* The peripheral register bank is the structure `Regs`; each driver method
  becomes a function `Regs → Regs × List Event` (or on `AdcState`, which adds
  the handle-local `sample_time` field), returning the post-state together
  with the trace of register operations in program order.
* Busy-poll loops (`while ... {}`) terminate only when the hardware moves the
  polled bit; each is modelled as a single `poll…` event whose post-state is
  the state the loop exits in (the hardware having moved the bit), per the
  reference-manual semantics of the ADCAL / ADRDY / EOS bits.
* `Adc::new` panics when the prescaler ratio is unsupported or when the
  recomputed frequency exceeds the ceiling; it is embedded as an
  `Option (AdcState × List Event)`, `none` meaning a panic.
-/

namespace AdcG4

/-- Constant `MAX_ADC_CLK_FREQ` for the stm32g4 family: `Hertz::mhz(60)`. -/
def maxAdcClkFreq : Nat := 60000000

/-- The prescaler enum (`enum Prescaler` in the source). -/
inductive Prescaler
  | NotDivided
  | DividedBy2
  | DividedBy4
  | DividedBy6
  | DividedBy8
  | DividedBy10
  | DividedBy12
  | DividedBy16
  | DividedBy32
  | DividedBy64
  | DividedBy128
  | DividedBy256
  deriving DecidableEq, Repr

namespace Prescaler

/-- Embedding of `Prescaler::from_ker_ck`: matches on `frequency.0 / MAX_ADC_CLK_FREQ.0`
(Rust `u32` division, here `Nat` division); the `_ => unimplemented!()` arm
(a panic) is `none`. -/
def from_ker_ck (frequency : Nat) : Option Prescaler :=
  let raw_prescaler := frequency / maxAdcClkFreq
  if raw_prescaler = 0 then some NotDivided
  else if raw_prescaler = 1 then some DividedBy2
  else if raw_prescaler ≤ 3 then some DividedBy4
  else if raw_prescaler ≤ 5 then some DividedBy6
  else if raw_prescaler ≤ 7 then some DividedBy8
  else if raw_prescaler ≤ 9 then some DividedBy10
  else if raw_prescaler ≤ 11 then some DividedBy12
  else none

/-- Embedding of `Prescaler::divisor`. -/
def divisor : Prescaler → Nat
  | NotDivided => 1
  | DividedBy2 => 2
  | DividedBy4 => 4
  | DividedBy6 => 6
  | DividedBy8 => 8
  | DividedBy10 => 10
  | DividedBy12 => 12
  | DividedBy16 => 16
  | DividedBy32 => 32
  | DividedBy64 => 64
  | DividedBy128 => 128
  | DividedBy256 => 256

end Prescaler

/-- The divisor ladder actually reachable from `from_ker_ck` (the spec's
"fixed ladder {1, 2, 4, 6, 8, 10, 12}"). -/
def ladder : List Nat := [1, 2, 4, 6, 8, 10, 12]

/-- Modelled from the spec: `super::Resolution` (adc/mod.rs is not in the
sampled sources). "Resolution: bit width of the result register"; the G4
ADC supports 12-, 10-, 8- and 6-bit results, selected by `CFGR.RES`. -/
inductive Resolution
  | Bits12
  | Bits10
  | Bits8
  | Bits6
  deriving DecidableEq, Repr

/-- The result bit width W of a resolution setting. -/
def Resolution.width : Resolution → Nat
  | .Bits12 => 12
  | .Bits10 => 10
  | .Bits8 => 8
  | .Bits6 => 6

/-- The ADC register bank, restricted to the fields this driver touches.
`difsel` is the per-channel differential-select array (bit = `DIFFERENTIAL`,
19 channel bits on G4); `smpr1`/`smpr2` are the two sample-time banks
(`SMPR` fields SMP0..SMP9 and `SMPR2` fields SMP10..SMP18); ISR bits are
modelled post-side-effect (a write-1-to-clear is a transition to `false`). -/
structure Regs where
  deeppwd : Bool
  advregen : Bool
  adcaldif_single : Bool
  adcal : Bool
  aden : Bool
  adstart : Bool
  isr_adrdy : Bool
  isr_eos : Bool
  isr_eoc : Bool
  difsel : Fin 19 → Bool
  cfgr_cont : Bool
  cfgr_exten_disabled : Bool
  cfgr_res : Resolution
  smpr1 : Fin 10 → Nat
  smpr2 : Fin 9 → Nat
  sqr1_sq0 : Nat
  sqr1_l : Nat
  dr : Nat
  ccr_presc : Nat

/-- Register reset state (the state after `rcc::enable_and_reset`): CR resets
to DEEPPWD = 1, everything else cleared, 12-bit resolution. -/
def regsReset : Regs where
  deeppwd := true
  advregen := false
  adcaldif_single := false
  adcal := false
  aden := false
  adstart := false
  isr_adrdy := false
  isr_eos := false
  isr_eoc := false
  difsel := fun _ => false
  cfgr_cont := false
  cfgr_exten_disabled := false
  cfgr_res := .Bits12
  smpr1 := fun _ => 0
  smpr2 := fun _ => 0
  sqr1_sq0 := 0
  sqr1_l := 0
  dr := 0
  ccr_presc := 1

/-- The driver handle: the register bank it exclusively owns plus the stored
default `sample_time` (a `SampleTime` bit code, kept abstract as `Nat`). -/
structure AdcState where
  regs : Regs
  sampleTime : Nat

/-- Register operations in program order, one event per source statement
(poll loops are one event each, emitted when the loop exits). -/
inductive Event
  | enableAndReset
  | writePresc
  | crPowerUp
  | delayUs (us : Nat)
  | difselAllSingleEnded
  | setAdcaldifSingle
  | setAdcal
  | pollAdcalClear
  | clearAdrdy
  | setAden
  | pollAdrdySet
  | configureCfgr
  | clearAden
  | writeDifsel (ch : Fin 19) (enable : Bool)
  | writeRes
  | writeSampleTime (ch : Fin 19)
  | writeSqr1 (ch : Fin 19)
  | clearEosEoc
  | setAdstart
  | pollEosSet
  | readDr
  deriving DecidableEq, Repr

/-- Embedding of `Adc::power_up`: clear DEEPPWD, set ADVREGEN, then a fixed 10 µs settle
delay. -/
def power_up (s : Regs) : Regs × List Event :=
  ({ s with deeppwd := false, advregen := true },
   [.crPowerUp, .delayUs 10])

/-- Embedding of `Adc::configure_differential_inputs`: `for n in 0..18` forces DIFSEL
bits 0..17 to SINGLEENDED. -/
def configure_differential_inputs (s : Regs) : Regs × List Event :=
  ({ s with difsel := fun n => if n.val < 18 then false else s.difsel n },
   [.difselAllSingleEnded])

/-- Embedding of `Adc::calibrate`: select single-ended calibration, set ADCAL, busy-poll
ADCAL until the hardware clears it (calibration done). -/
def calibrate (s : Regs) : Regs × List Event :=
  ({ s with adcaldif_single := true, adcal := false },
   [.setAdcaldifSingle, .setAdcal, .pollAdcalClear])

/-- Embedding of `Adc::enable`: write 1 to ISR.ADRDY (clearing the flag), set ADEN,
busy-poll ADRDY until the hardware sets it, then clear ADRDY again. -/
def enable (s : Regs) : Regs × List Event :=
  ({ s with isr_adrdy := false, aden := true },
   [.clearAdrdy, .setAden, .pollAdrdySet, .clearAdrdy])

/-- Embedding of `Adc::configure`: single conversion mode, hardware trigger disabled. -/
def configure (s : Regs) : Regs × List Event :=
  ({ s with cfgr_cont := false, cfgr_exten_disabled := true },
   [.configureCfgr])

/-- Embedding of `Adc::new`: prescaler selection (panic = `none`), CCR.PRESC write, the
recomputed-frequency recheck (panic = `none`), then the power-up /
default-single-ended / calibrate / enable / configure sequence.
`sample_time` starts as `SampleTime::from_bits(0)`. -/
def new (f : Nat) (s0 : Regs) : Option (AdcState × List Event) :=
  match Prescaler.from_ker_ck f with
  | none => none
  | some prescaler =>
    let s1 := { s0 with ccr_presc := prescaler.divisor }
    let frequency := f / prescaler.divisor
    if maxAdcClkFreq < frequency then none
    else
      let (s2, e2) := power_up s1
      let (s3, e3) := configure_differential_inputs s2
      let (s4, e4) := calibrate s3
      let (s5, e5) := enable s4
      let (s6, e6) := configure s5
      some ({ regs := s6, sampleTime := 0 },
        [.enableAndReset, .writePresc] ++ e2 ++ e3 ++ e4
          ++ [.delayUs 1] ++ e5 ++ e6)

/-- Embedding of `Adc::set_differential_channel` (stm32g4): disable the ADC, write the
channel's DIFSEL bit, re-enable. -/
def set_differential_channel (ch : Fin 19) (enable : Bool) (s : Regs) :
    Regs × List Event :=
  ({ s with aden := true, difsel := Function.update s.difsel ch enable },
   [.clearAden, .writeDifsel ch enable, .setAden])

/-- Embedding of `Adc::set_sample_time`: stores the sample time in the handle. -/
def set_sample_time (sample_time : Nat) (a : AdcState) : AdcState :=
  { a with sampleTime := sample_time }

/-- Embedding of `Adc::set_resolution`: writes CFGR.RES. -/
def set_resolution (resolution : Resolution) (s : Regs) : Regs × List Event :=
  ({ s with cfgr_res := resolution }, [.writeRes])

/-- Embedding of `Adc::set_channel_sample_time`: bank select by index threshold —
channels 0..9 go to `SMPR` at field `ch`, channels 10..18 to `SMPR2` at
field `ch - 10`. -/
def set_channel_sample_time (ch : Fin 19) (sample_time : Nat) (s : Regs) :
    Regs × List Event :=
  (if h : ch.val ≤ 9 then
    { s with smpr1 := Function.update s.smpr1 ⟨ch.val, by omega⟩ sample_time }
  else
    { s with smpr2 := Function.update s.smpr2 ⟨ch.val - 10, by omega⟩ sample_time },
   [.writeSampleTime ch])

/-- Embedding of `Adc::convert`: clear EOS/EOC, set ADSTART, busy-poll EOS until the
hardware finishes the conversion, read DR.  The hardware side of the
conversion (reference-manual contract, matching the spec's "return it sized
to the currently configured resolution"): the result written to DR is the
sample truncated to the configured resolution width; on completion the
hardware sets EOC/EOS and clears ADSTART.  `env` is the analog sample the
converter would produce; `.0 as u16` is the final `% 2 ^ 16`. -/
def convert (env : Nat) (s : Regs) : Nat × Regs × List Event :=
  let data := env % 2 ^ s.cfgr_res.width
  (data % 2 ^ 16,
   { s with isr_eos := true, isr_eoc := true, adstart := false, dr := data },
   [.clearEosEoc, .setAdstart, .pollEosSet, .readDr])

/-- Embedding of `Adc::read_channel`: apply the stored sample time to the channel,
program the single-entry regular sequence, convert. -/
def read_channel (env : Nat) (ch : Fin 19) (a : AdcState) :
    Nat × AdcState × List Event :=
  let (r1, e1) := set_channel_sample_time ch a.sampleTime a.regs
  let r2 := { r1 with sqr1_sq0 := ch.val, sqr1_l := 0 }
  let (v, r3, e3) := convert env r2
  (v, { a with regs := r3 }, e1 ++ [.writeSqr1 ch] ++ e3)

/-- Embedding of `Adc::blocking_read`: `channel.setup()` binds the GPIO pin (outside the
ADC register bank modelled here), then `read_channel`. -/
def blocking_read (env : Nat) (ch : Fin 19) (a : AdcState) :
    Nat × AdcState × List Event :=
  read_channel env ch a

end AdcG4

/-! ## Prescaler selection (C1, C3, C9) -/

namespace AdcG4

/-- The divisor the driver actually picks: the smallest ladder entry `d`
with `f` strictly below `d * maxAdcClkFreq` (equivalently, the post-divide
frequency strictly below the ceiling). -/
def smallestStrictLadderDivisor (f d : Nat) : Prop :=
  d ∈ ladder ∧ f < d * maxAdcClkFreq ∧
    ∀ e ∈ ladder, f < e * maxAdcClkFreq → d ≤ e

instance (f d : Nat) : Decidable (smallestStrictLadderDivisor f d) := by
  unfold smallestStrictLadderDivisor; infer_instance

/-- C1 (counterexample to the claim as stated): at `F = 60 MHz` the code
picks divisor 2, although 1 is a ladder divisor with `F / 1 ≤ 60 MHz`, so
the chosen divisor is not the smallest ladder divisor `d` with
`F / d ≤ 60 MHz`. -/
theorem c1_claim_counterexample :
    (Prescaler.from_ker_ck 60000000).map Prescaler.divisor = some 2 ∧
    1 ∈ ladder ∧ 60000000 / 1 ≤ maxAdcClkFreq ∧ (1 : Nat) < 2 := by
  decide

/-- C1 (amended): whenever `from_ker_ck` succeeds, the chosen divisor is the
smallest ladder divisor `d` with `F / d` strictly below the 60 MHz ceiling
(that is, `F < d * 60 MHz`); at a frequency that is an exact multiple of the
ceiling the next larger divisor is chosen. `F = 160 MHz` still yields `d = 4`
and a resulting frequency of 40 MHz. -/
theorem c1_prescaler_picks_smallest_strict (f : Nat) (p : Prescaler)
    (h : Prescaler.from_ker_ck f = some p) :
    smallestStrictLadderDivisor f p.divisor := by
  simp only [Prescaler.from_ker_ck] at h
  split_ifs at h <;>
    simp only [Option.some.injEq] at h <;> subst h <;>
    simp_all [smallestStrictLadderDivisor, ladder, Prescaler.divisor,
      maxAdcClkFreq] <;> omega

/-- C1 witness: the amended property evaluated at `F = 160 MHz`. -/
theorem c1_witness :
    Prescaler.from_ker_ck 160000000 = some Prescaler.DividedBy4 ∧
    160000000 / Prescaler.DividedBy4.divisor = 40000000 ∧
    smallestStrictLadderDivisor 160000000 Prescaler.DividedBy4.divisor :=
  ⟨by decide, by decide,
   c1_prescaler_picks_smallest_strict 160000000 Prescaler.DividedBy4 (by decide)⟩

/-- C3: when `floor(F / 60 MHz) ≥ 12`, prescaler selection hits the
`unimplemented!()` arm and construction aborts fatally: no prescaler and no
driver handle is produced. -/
theorem c3_ratio_ge_12_aborts (f : Nat) (s0 : Regs)
    (h : 12 ≤ f / maxAdcClkFreq) :
    Prescaler.from_ker_ck f = none ∧ new f s0 = none := by
  have hp : Prescaler.from_ker_ck f = none := by
    simp only [maxAdcClkFreq] at h
    simp only [Prescaler.from_ker_ck, maxAdcClkFreq]
    split_ifs <;> first | rfl | omega
  exact ⟨hp, by simp [new, hp]⟩

/-- C3 witness: `F = 800 MHz` (ratio 13) aborts. -/
theorem c3_witness :
    Prescaler.from_ker_ck 800000000 = none ∧ new 800000000 regsReset = none :=
  c3_ratio_ge_12_aborts 800000000 regsReset (by decide)

/-- C9: whenever prescaler selection succeeds, the recomputed post-divide
frequency `F / divisor` is at most the 60 MHz ceiling, so the fatal
frequency-recheck branch in the constructor is unreachable: construction
never returns `none` once a prescaler was selected. -/
theorem c9_frequency_recheck_unreachable (f : Nat) (p : Prescaler)
    (h : Prescaler.from_ker_ck f = some p) :
    f / p.divisor ≤ maxAdcClkFreq ∧ ∀ s0 : Regs, new f s0 ≠ none := by
  have hb : f / p.divisor ≤ maxAdcClkFreq := by
    simp only [Prescaler.from_ker_ck] at h
    split_ifs at h <;>
      simp only [Option.some.injEq] at h <;> subst h <;>
      simp only [Prescaler.divisor, maxAdcClkFreq] at * <;> omega
  refine ⟨hb, fun s0 => ?_⟩
  simp only [new, h, if_neg (not_lt.mpr hb)]
  simp [power_up, configure_differential_inputs, calibrate, enable, configure]

/-- C9 witness: evaluated at `F = 160 MHz` (divisor 4). -/
theorem c9_witness :
    160000000 / Prescaler.DividedBy4.divisor ≤ maxAdcClkFreq ∧
    new 160000000 regsReset ≠ none :=
  ⟨(c9_frequency_recheck_unreachable 160000000 Prescaler.DividedBy4 (by decide)).1,
   (c9_frequency_recheck_unreachable 160000000 Prescaler.DividedBy4 (by decide)).2
     regsReset⟩


/-! ## Constructor and enable-step traces (C4, C6) -/

/-- C4: every completing execution of the constructor sets the
calibration-start bit (ADCAL) and busy-polls the calibration-busy bit until
observed clear, strictly before the enable request (ADEN), and no conversion
start (ADSTART) occurs anywhere in the constructor. -/
theorem c4_calibration_before_enable (f : Nat) (s0 : Regs) (tr : List Event)
    (h : (new f s0).map Prod.snd = some tr) :
    ∃ i j k : Nat, i < j ∧ j < k ∧
      tr[i]? = some Event.setAdcal ∧
      tr[j]? = some Event.pollAdcalClear ∧
      tr[k]? = some Event.setAden ∧
      Event.setAdstart ∉ tr := by
  rcases hp : Prescaler.from_ker_ck f with _ | p
  · simp [new, hp] at h
  · by_cases hc : maxAdcClkFreq < f / p.divisor
    · simp [new, hp, hc] at h
    · simp [new, hp, hc, power_up, configure_differential_inputs, calibrate,
        enable, configure] at h
      subst h
      refine ⟨6, 7, 10, ?_⟩
      decide

/-- The constructor's register-operation trace (for the C4 witness). -/
def newTraceG4 : List Event :=
  [.enableAndReset, .writePresc, .crPowerUp, .delayUs 10,
   .difselAllSingleEnded, .setAdcaldifSingle, .setAdcal, .pollAdcalClear,
   .delayUs 1, .clearAdrdy, .setAden, .pollAdrdySet, .clearAdrdy,
   .configureCfgr]

/-- C4 witness: the constructor run at `F = 160 MHz` from reset state. -/
theorem c4_witness :
    ∃ i j k : Nat, i < j ∧ j < k ∧
      newTraceG4[i]? = some Event.setAdcal ∧
      newTraceG4[j]? = some Event.pollAdcalClear ∧
      newTraceG4[k]? = some Event.setAden ∧
      Event.setAdstart ∉ newTraceG4 :=
  c4_calibration_before_enable 160000000 regsReset newTraceG4 (by decide)

/-- C6: in every execution of the enable step, the ready-status flag is
cleared before the enable request, the ready flag is busy-polled until set,
and the flag is cleared once more after the poll. -/
theorem c6_enable_clear_poll_clear (s : Regs) :
    ∃ i j k l : Nat, i < j ∧ j < k ∧ k < l ∧
      (enable s).2[i]? = some Event.clearAdrdy ∧
      (enable s).2[j]? = some Event.setAden ∧
      (enable s).2[k]? = some Event.pollAdrdySet ∧
      (enable s).2[l]? = some Event.clearAdrdy :=
  ⟨0, 1, 2, 3, by omega, by omega, by omega, rfl, rfl, rfl, rfl⟩

/-! ## Conversion results (C2, C8) -/

/-- C2: `blocking_read` always returns a value within `[0, 2^W - 1]` for the
currently configured resolution width W (lower bound trivial over `Nat`). -/
theorem c2_blocking_read_in_range (env : Nat) (ch : Fin 19) (a : AdcState) :
    (blocking_read env ch a).1 ≤ 2 ^ a.regs.cfgr_res.width - 1 := by
  have key : (blocking_read env ch a).1
      = (env % 2 ^ a.regs.cfgr_res.width) % 2 ^ 16 := by
    by_cases h : ch.val ≤ 9 <;>
      simp [blocking_read, read_channel, convert, set_channel_sample_time, h]
  rw [key]
  have h1 : env % 2 ^ a.regs.cfgr_res.width < 2 ^ a.regs.cfgr_res.width :=
    Nat.mod_lt _ (pow_pos (by omega) _)
  have h2 : (env % 2 ^ a.regs.cfgr_res.width) % 2 ^ 16
      ≤ env % 2 ^ a.regs.cfgr_res.width := Nat.mod_le _ _
  omega

/-- C8: two consecutive `blocking_read` calls on the same channel, with
unchanged configuration and the same constant converter input, return
exactly equal results. -/
theorem c8_blocking_read_idempotent (env : Nat) (ch : Fin 19) (a : AdcState) :
    (blocking_read env ch (blocking_read env ch a).2.1).1
      = (blocking_read env ch a).1 := by
  by_cases h : ch.val ≤ 9 <;>
    simp [blocking_read, read_channel, convert, set_channel_sample_time, h]

/-! ## Differential selection (C5) -/

/-- An initial register state whose channel-3 differential bit is set. -/
def diffInitial : Regs :=
  { regsReset with difsel := fun n => decide (n.val = 3) }

/-- C5 (counterexample to the claim as stated): starting from a state whose
channel-3 bit is DIFFERENTIAL, `set_differential_channel 3 true` followed by
`set_differential_channel 3 false` leaves the DIFSEL register different from
what it was before the first call. -/
theorem c5_claim_counterexample :
    (set_differential_channel 3 false
        (set_differential_channel 3 true diffInitial).1).1.difsel
      ≠ diffInitial.difsel := by
  decide

/-- C5 (amended): if channel `ch` is single-ended (DIFSEL bit clear) before
the first call — as in the post-construction default state — then
`set_differential_channel ch true` immediately followed by
`set_differential_channel ch false` restores the DIFSEL register
bit-for-bit. -/
theorem c5_differential_restore (ch : Fin 19) (s : Regs)
    (h : s.difsel ch = false) :
    (set_differential_channel ch false
        (set_differential_channel ch true s).1).1.difsel = s.difsel := by
  simp only [set_differential_channel]
  rw [Function.update_idem, ← h, Function.update_eq_self]

/-- C5 witness: channel 5 from the reset state (all single-ended). -/
theorem c5_witness :
    regsReset.difsel 5 = false ∧
    (set_differential_channel 5 false
        (set_differential_channel 5 true regsReset).1).1.difsel
      = regsReset.difsel :=
  ⟨rfl, c5_differential_restore 5 regsReset rfl⟩

/-! ## Sample-time configuration (C7, C10) -/

/-- C7: the per-channel sample-time write selects the register bank by index
threshold: a channel with index at most 9 updates the low bank `SMPR` at
field `ch` (high bank untouched); a channel with index above 9 updates the
high bank `SMPR2` at field `ch - 10` (low bank untouched). -/
theorem c7_sample_time_bank_select (ch : Fin 19) (t : Nat) (s : Regs) :
    (∀ hlo : ch.val ≤ 9,
      (set_channel_sample_time ch t s).1.smpr1
          = Function.update s.smpr1 ⟨ch.val, by omega⟩ t ∧
      (set_channel_sample_time ch t s).1.smpr2 = s.smpr2) ∧
    (∀ hhi : 9 < ch.val,
      (set_channel_sample_time ch t s).1.smpr2
          = Function.update s.smpr2 ⟨ch.val - 10, by
              have := ch.isLt; omega⟩ t ∧
      (set_channel_sample_time ch t s).1.smpr1 = s.smpr1) := by
  constructor
  · intro hlo
    simp [set_channel_sample_time, hlo]
  · intro hhi
    have hn : ¬ ch.val ≤ 9 := by omega
    simp [set_channel_sample_time, hn]

/-- C7 witness: channel 3 lands in the low bank, channel 12 in the high bank
at field 2. -/
theorem c7_witness :
    (set_channel_sample_time 3 7 regsReset).1.smpr1
        = Function.update regsReset.smpr1 ⟨3, by omega⟩ 7 ∧
    (set_channel_sample_time 12 7 regsReset).1.smpr2
        = Function.update regsReset.smpr2 ⟨2, by omega⟩ 7 :=
  ⟨((c7_sample_time_bank_select 3 7 regsReset).1 (by decide)).1,
   ((c7_sample_time_bank_select 12 7 regsReset).2 (by decide)).1⟩

/-- Read-back accessor for the sample-time field a channel maps to (same
bank/index threshold as `set_channel_sample_time`). -/
def sampleReg (s : Regs) (ch : Fin 19) : Nat :=
  if h : ch.val ≤ 9 then s.smpr1 ⟨ch.val, by omega⟩
  else s.smpr2 ⟨ch.val - 10, by have := ch.isLt; omega⟩

/-- C10: `set_sample_time` writes no peripheral register — it only stores the
sample time in the driver handle; the stored value is applied to the
channel's sample-time register field at the start of the next read (the
first register operation of `read_channel` is the sample-time write, and
after the read that field holds the stored value). -/
theorem c10_set_sample_time_deferred (st : Nat) (a : AdcState) (env : Nat)
    (ch : Fin 19) :
    (set_sample_time st a).regs = a.regs ∧
    (set_sample_time st a).sampleTime = st ∧
    (read_channel env ch (set_sample_time st a)).2.2.head?
        = some (Event.writeSampleTime ch) ∧
    sampleReg (read_channel env ch (set_sample_time st a)).2.1.regs ch = st := by
  refine ⟨rfl, rfl, ?_, ?_⟩
  · by_cases h : ch.val ≤ 9 <;>
      simp [read_channel, set_channel_sample_time, convert, h]
  · by_cases h : ch.val ≤ 9 <;>
      simp [read_channel, set_channel_sample_time, convert, sampleReg,
        set_sample_time, h]

end AdcG4
